import Mathlib

/-!
Verification of the relationship-graph and risk-scoring core of the
Chain-Of-Record backend. The definitions below are a shallow embedding of
the Python sources:
  backend/app/domain/graph/service.py   (GraphService)
  backend/app/domain/graph/models.py    (Relationship, RiskScore rows)
  backend/app/domain/scoring/engine.py  (grade_score, RuleRegistry,
                                         ScoringEngine)
Machine integers are modelled as Int (Python ints are unbounded), dates as
Int day ordinals (only differences and nullness matter), SQL floats and
Numeric columns as Rat, nullable columns as Option. Python truthiness is
embedded where the source relies on it (empty string, zero int, None and
the float 0.0 are all falsy).
-/

namespace ChainOfRecord

/-- A row of the relationships table (graph/models.py, class Relationship).
The id is assigned by the store at insert time. -/
structure Relationship where
  id : Nat
  from_type : String
  from_id : Int
  to_type : String
  to_id : Int
  rel_type : String
  source_system : String
  start_date : Option Int
  end_date : Option Int
  confidence : Option Rat
deriving DecidableEq

/-- The relationship store backing GraphService: the rows of the
relationships table in insertion order plus the next primary key. -/
structure GraphStore where
  rels : List Relationship
  next_id : Nat
deriving DecidableEq

/-- The duplicate check of GraphService.create_relationship: an active
(end_date null) row with the identical identity tuple
(from_type, from_id, to_type, to_id, rel_type). -/
def matchesActiveIdentity (ft : String) (fi : Int) (tt : String) (ti : Int)
    (rt : String) (r : Relationship) : Bool :=
  r.from_type == ft && r.from_id == fi && r.to_type == tt && r.to_id == ti
    && r.rel_type == rt && r.end_date == none

/-- The Python idiom `confidence or 1.0` and
`float(rel.confidence) if rel.confidence else 1.0`: None and 0.0 are falsy
and replaced by 1.0; any other value passes through. -/
def confidenceOrOne (c : Option Rat) : Rat :=
  match c with
  | none => 1
  | some c => if c = 0 then 1 else c

/-- GraphService.create_relationship: query the first active row with the
same identity tuple; when found return it unchanged, otherwise insert a
fresh row whose confidence is `confidence or 1.0`. Returns the store after
the call together with the returned row. -/
def create_relationship (s : GraphStore) (from_type : String) (from_id : Int)
    (to_type : String) (to_id : Int) (rel_type : String)
    (source_system : String) (start_date : Option Int) (end_date : Option Int)
    (confidence : Option Rat) : GraphStore × Relationship :=
  match s.rels.find? (matchesActiveIdentity from_type from_id to_type to_id rel_type) with
  | some existing => (s, existing)
  | none =>
    let r : Relationship :=
      { id := s.next_id, from_type := from_type, from_id := from_id,
        to_type := to_type, to_id := to_id, rel_type := rel_type,
        source_system := source_system, start_date := start_date,
        end_date := end_date, confidence := some (confidenceOrOne confidence) }
    ({ rels := s.rels ++ [r], next_id := s.next_id + 1 }, r)

/-- GraphService.get_outgoing_relationships. The rel_type filter is applied
only when the argument is truthy (Python `if rel_type:` — None and the
empty string both skip the filter); active_only restricts to null
end_date. -/
def get_outgoing_relationships (s : GraphStore) (node_type : String)
    (node_id : Int) (rel_type : Option String) (active_only : Bool) :
    List Relationship :=
  s.rels.filter (fun r =>
    (r.from_type == node_type && r.from_id == node_id)
    && (match rel_type with
        | none => true
        | some rt => if rt == "" then true else r.rel_type == rt)
    && (!active_only || r.end_date == none))

/-- GraphService.get_incoming_relationships: symmetric on the to side. -/
def get_incoming_relationships (s : GraphStore) (node_type : String)
    (node_id : Int) (rel_type : Option String) (active_only : Bool) :
    List Relationship :=
  s.rels.filter (fun r =>
    (r.to_type == node_type && r.to_id == node_id)
    && (match rel_type with
        | none => true
        | some rt => if rt == "" then true else r.rel_type == rt)
    && (!active_only || r.end_date == none))

/-- The node key used by find_connected_entities for its nodes dict:
the Python f-string "{type}:{id}". -/
def nodeKey (t : String) (i : Int) : String := t ++ ":" ++ toString i

/-- A value of the nodes dict built by find_connected_entities. -/
structure NodeView where
  type : String
  id : Int
  depth : Int
deriving DecidableEq

/-- An edge record emitted by find_connected_entities. -/
structure EdgeView where
  from_node : String
  to_node : String
  relationship : String
  source : String
  confidence : Rat
deriving DecidableEq

/-- The mutable state of the inner traverse closure: the visited set of
(type, id) pairs, the nodes dict (an association list in insertion order,
matching a Python dict) and the edges list. -/
structure TraverseState where
  visited : List (String × Int)
  nodes : List (String × NodeView)
  edges : List EdgeView
deriving DecidableEq

/-- Python dict assignment on an association list: replace the value when
the key is present, append otherwise. -/
def dictInsert (m : List (String × NodeView)) (k : String) (v : NodeView) :
    List (String × NodeView) :=
  if m.any (fun e => e.1 == k) then
    m.map (fun e => if e.1 == k then (k, v) else e)
  else m ++ [(k, v)]

/-- The continue test `if rel_types and rel.rel_type not in rel_types` of
find_connected_entities: an empty filter list is falsy and blocks
nothing. -/
def relTypesBlocks (rts : Option (List String)) (rt : String) : Bool :=
  match rts with
  | none => false
  | some l => !l.isEmpty && !(l.contains rt)

/-- The edge dict emitted for an outgoing relationship of the current
node. -/
def outEdgeView (t : String) (i : Int) (r : Relationship) : EdgeView :=
  { from_node := nodeKey t i, to_node := nodeKey r.to_type r.to_id,
    relationship := r.rel_type, source := r.source_system,
    confidence := confidenceOrOne r.confidence }

/-- The edge dict emitted for an incoming relationship of the current
node. -/
def inEdgeView (t : String) (i : Int) (r : Relationship) : EdgeView :=
  { from_node := nodeKey r.from_type r.from_id, to_node := nodeKey t i,
    relationship := r.rel_type, source := r.source_system,
    confidence := confidenceOrOne r.confidence }

/-- The recursive traverse closure of
GraphService.find_connected_entities. The Python recursion terminates
because every productive call adds a node to the visited set and all
reachable nodes are endpoints of stored relationships (or the root); the
fuel argument makes that termination structural. Any call chain nests at
most one productive frame per reachable node, so fuel
2 * (number of rows) + 2 (see fuelFor) is never exhausted; every theorem
below either holds for all fuel values or concerns depths at which the
recursion stops regardless of fuel. -/
def traverse (s : GraphStore) (rel_types : Option (List String))
    (max_depth : Int) :
    Nat → String → Int → Int → TraverseState → TraverseState
  | 0, _, _, _, st => st
  | fuel + 1, current_type, current_id, depth, st =>
    if depth > max_depth ∨ (current_type, current_id) ∈ st.visited then st
    else
      let st1 : TraverseState :=
        { st with
          visited := (current_type, current_id) :: st.visited,
          nodes := dictInsert st.nodes (nodeKey current_type current_id)
            { type := current_type, id := current_id, depth := depth } }
      let st2 := (get_outgoing_relationships s current_type current_id none true).foldl
        (fun acc r =>
          if relTypesBlocks rel_types r.rel_type then acc
          else
            traverse s rel_types max_depth fuel r.to_type r.to_id (depth + 1)
              { acc with edges := acc.edges ++ [outEdgeView current_type current_id r] })
        st1
      (get_incoming_relationships s current_type current_id none true).foldl
        (fun acc r =>
          if relTypesBlocks rel_types r.rel_type then acc
          else
            traverse s rel_types max_depth fuel r.from_type r.from_id (depth + 1)
              { acc with edges := acc.edges ++ [inEdgeView current_type current_id r] })
        st2

/-- Fuel sufficient for the traversal of a store: one productive frame per
reachable node (at most two endpoints per row, plus the root), plus one. -/
def fuelFor (s : GraphStore) : Nat := 2 * s.rels.length + 2

/-- The dict returned by find_connected_entities. -/
structure SubgraphResult where
  nodes : List (String × NodeView)
  edges : List EdgeView
  total_nodes : Nat
  total_edges : Nat
deriving DecidableEq

/-- GraphService.find_connected_entities: traverse from ("entity",
entity_id) at depth 0 and package the final state. -/
def find_connected_entities (s : GraphStore) (entity_id : Int)
    (max_depth : Int) (rel_types : Option (List String)) : SubgraphResult :=
  let st := traverse s rel_types max_depth (fuelFor s) "entity" entity_id 0
    { visited := [], nodes := [], edges := [] }
  { nodes := st.nodes, edges := st.edges, total_nodes := st.nodes.length,
    total_edges := st.edges.length }

/-- A row of the entities table, the attributes the scoring engine
reads (entities/models.py, class Entity). -/
structure Entity where
  id : Int
  status : Option String
  formation_date : Option Int
  registered_agent_id : Option Int
  primary_address_id : Option Int
deriving DecidableEq

/-- A row of the risk_scores table as written by ScoringEngine._save_score. -/
structure RiskScore where
  entity_id : Int
  score : Int
  grade : String
  flags : List String
deriving DecidableEq

/-- The database visible to the scoring engine: the entities table, the
relationship store and the append-only risk_scores table. -/
structure DB where
  entities : List Entity
  graph : GraphStore
  risk_scores : List RiskScore
deriving DecidableEq

/-- scoring/engine.py grade_score: numeric score to letter grade. -/
def grade_score (score : Int) : String :=
  if score ≤ 20 then "A"
  else if score ≤ 40 then "B"
  else if score ≤ 60 then "C"
  else if score ≤ 80 then "D"
  else "F"

/-- The feature bundle assembled per scoring run (class ScoringContext;
the db session, graph service handle and unused recent_events list are
dropped from the embedding). -/
structure ScoringContext where
  entity : Entity
  property_count : Nat
  entity_age_days : Option Int
  agent_entity_count : Nat
  address_entity_count : Nat
deriving DecidableEq

/-- A scoring rule (class ScoringRule): name, weight, category,
description and a boolean predicate over the context. -/
structure ScoringRule where
  name : String
  weight : Int
  category : String
  description : String
  fn : ScoringContext → Bool

/-- Rule NEW_ENTITY_LT_90_DAYS: age is not None and age < 90. -/
def NEW_ENTITY_LT_90_DAYS : ScoringRule :=
  { name := "NEW_ENTITY_LT_90_DAYS", weight := 10, category := "entity",
    description := "Entity formed within last 90 days",
    fn := fun ctx =>
      match ctx.entity_age_days with
      | none => false
      | some d => decide (d < 90) }

/-- Rule NEW_ENTITY_LT_30_DAYS: age is not None and age < 30. -/
def NEW_ENTITY_LT_30_DAYS : ScoringRule :=
  { name := "NEW_ENTITY_LT_30_DAYS", weight := 15, category := "entity",
    description := "Entity formed within last 30 days",
    fn := fun ctx =>
      match ctx.entity_age_days with
      | none => false
      | some d => decide (d < 30) }

/-- Rule NO_PRIMARY_ADDRESS: primary_address_id is None. -/
def NO_PRIMARY_ADDRESS : ScoringRule :=
  { name := "NO_PRIMARY_ADDRESS", weight := 5, category := "entity",
    description := "Entity has no primary address on file",
    fn := fun ctx => ctx.entity.primary_address_id == none }

/-- Rule INACTIVE_STATUS: the status string is truthy (not None, not
empty) and uppercases to INACTIVE or DISSOLVED. -/
def INACTIVE_STATUS : ScoringRule :=
  { name := "INACTIVE_STATUS", weight := 8, category := "entity",
    description := "Entity status is inactive or dissolved",
    fn := fun ctx =>
      match ctx.entity.status with
      | none => false
      | some st =>
        !(st == "") && (st.toUpper == "INACTIVE" || st.toUpper == "DISSOLVED") }

/-- Rule OWNS_GT_10_PROPERTIES: property_count > 10. -/
def OWNS_GT_10_PROPERTIES : ScoringRule :=
  { name := "OWNS_GT_10_PROPERTIES", weight := 10, category := "property",
    description := "Entity owns more than 10 properties",
    fn := fun ctx => decide (ctx.property_count > 10) }

/-- Rule OWNS_GT_25_PROPERTIES: property_count > 25. -/
def OWNS_GT_25_PROPERTIES : ScoringRule :=
  { name := "OWNS_GT_25_PROPERTIES", weight := 20, category := "property",
    description := "Entity owns more than 25 properties",
    fn := fun ctx => decide (ctx.property_count > 25) }

/-- Rule NO_PROPERTY_OWNERSHIP: the source reads
`ctx.property_count == 0 and ctx.entity_age_days and ctx.entity_age_days > 365`,
so a zero age is falsy and fails the middle conjunct. -/
def NO_PROPERTY_OWNERSHIP : ScoringRule :=
  { name := "NO_PROPERTY_OWNERSHIP", weight := 5, category := "property",
    description := "Entity owns no properties (may be shell)",
    fn := fun ctx =>
      (ctx.property_count == 0)
        && (match ctx.entity_age_days with
            | none => false
            | some d => !(d == 0) && decide (d > 365)) }

/-- Rule AGENT_REPRESENTS_GT_50_ENTITIES: agent_entity_count > 50. -/
def AGENT_REPRESENTS_GT_50_ENTITIES : ScoringRule :=
  { name := "AGENT_REPRESENTS_GT_50_ENTITIES", weight := 15,
    category := "relationships",
    description := "Registered agent represents more than 50 entities",
    fn := fun ctx => decide (ctx.agent_entity_count > 50) }

/-- Rule ADDRESS_GT_20_ENTITIES: address_entity_count > 20. -/
def ADDRESS_GT_20_ENTITIES : ScoringRule :=
  { name := "ADDRESS_GT_20_ENTITIES", weight := 12,
    category := "relationships",
    description := "More than 20 entities at same address",
    fn := fun ctx => decide (ctx.address_entity_count > 20) }

/-- Rule ADDRESS_GT_5_ENTITIES_NEW: the source reads
`ctx.address_entity_count > 5 and ctx.entity_age_days and ctx.entity_age_days < 180`,
so a zero age is falsy and fails the middle conjunct. -/
def ADDRESS_GT_5_ENTITIES_NEW : ScoringRule :=
  { name := "ADDRESS_GT_5_ENTITIES_NEW", weight := 8,
    category := "relationships",
    description := "More than 5 entities at same address, entity is new",
    fn := fun ctx =>
      decide (ctx.address_entity_count > 5)
        && (match ctx.entity_age_days with
            | none => false
            | some d => !(d == 0) && decide (d < 180)) }

/-- The default rule set in registration order
(RuleRegistry._register_default_rules); RuleRegistry.get_rules with no
category returns a copy of exactly this list. -/
def default_rules : List ScoringRule :=
  [NEW_ENTITY_LT_90_DAYS, NEW_ENTITY_LT_30_DAYS, NO_PRIMARY_ADDRESS,
   INACTIVE_STATUS, OWNS_GT_10_PROPERTIES, OWNS_GT_25_PROPERTIES,
   NO_PROPERTY_OWNERSHIP, AGENT_REPRESENTS_GT_50_ENTITIES,
   ADDRESS_GT_20_ENTITIES, ADDRESS_GT_5_ENTITIES_NEW]

/-- GraphService.get_entities_at_address: the ids of entities whose
primary_address_id equals the given address id (an attribute join). -/
def get_entities_at_address (entities : List Entity) (address_id : Int) :
    List Int :=
  (entities.filter (fun e => e.primary_address_id == some address_id)).map
    (fun e => e.id)

/-- ScoringEngine._build_context. Age is today minus the formation date
when present. The agent and address counts guard on Python truthiness of
the ids (`if entity.registered_agent_id:`), so a zero id yields count
0. -/
def build_context (today : Int) (db : DB) (entity : Entity) : ScoringContext :=
  let entity_age_days := entity.formation_date.map (fun fd => today - fd)
  let property_count :=
    ((get_outgoing_relationships db.graph "entity" entity.id (some "owns") true).filter
      (fun r => r.to_type == "property")).length
  let agent_entity_count :=
    match entity.registered_agent_id with
    | none => 0
    | some aid =>
      if aid == 0 then 0
      else
        ((get_outgoing_relationships db.graph "person" aid (some "agent_for") true).filter
          (fun r => r.to_type == "entity")).length
  let address_entity_count :=
    match entity.primary_address_id with
    | none => 0
    | some addr =>
      if addr == 0 then 0 else (get_entities_at_address db.entities addr).length
  { entity := entity, property_count := property_count,
    entity_age_days := entity_age_days,
    agent_entity_count := agent_entity_count,
    address_entity_count := address_entity_count }

/-- The per-rule detail dict appended for each triggered rule. -/
structure RuleDetail where
  name : String
  weight : Int
  category : String
  description : String
deriving DecidableEq

/-- The detail dict of one rule. -/
def detailOf (r : ScoringRule) : RuleDetail :=
  { name := r.name, weight := r.weight, category := r.category,
    description := r.description }

/-- The rule evaluation loop of ScoringEngine.score_entity: fold over the
registered rules accumulating score, triggered flags and rule details.
The embedded predicates are total, so the except branch that treats a
raising rule as not triggered is unreachable here. -/
def evalRules (rules : List ScoringRule) (ctx : ScoringContext) :
    Int × List String × List RuleDetail :=
  rules.foldl
    (fun acc rule =>
      if rule.fn ctx then
        (acc.1 + rule.weight, acc.2.1 ++ [rule.name], acc.2.2 ++ [detailOf rule])
      else acc)
    (0, [], [])

/-- The dict returned by ScoringEngine.score_entity (the nested context
dict is flattened into ctx_ fields). -/
structure ScoreResult where
  entity_id : Int
  score : Int
  grade : String
  flags : List String
  rule_details : List RuleDetail
  ctx_property_count : Nat
  ctx_entity_age_days : Option Int
  ctx_agent_entity_count : Nat
  ctx_address_entity_count : Nat
deriving DecidableEq

/-- ScoringEngine.score_entity. None models the ValueError raised when the
entity does not exist; otherwise the result dict is returned together with
the database after _save_score appended the new RiskScore row. -/
def score_entity (today : Int) (db : DB) (entity_id : Int) :
    Option (ScoreResult × DB) :=
  match db.entities.find? (fun e => e.id == entity_id) with
  | none => none
  | some entity =>
    let ctx := build_context today db entity
    let r := evalRules default_rules ctx
    let grade := grade_score r.1
    some
      ({ entity_id := entity_id, score := r.1, grade := grade,
         flags := r.2.1, rule_details := r.2.2,
         ctx_property_count := ctx.property_count,
         ctx_entity_age_days := ctx.entity_age_days,
         ctx_agent_entity_count := ctx.agent_entity_count,
         ctx_address_entity_count := ctx.address_entity_count },
       { db with
         risk_scores := db.risk_scores ++
           [{ entity_id := entity_id, score := r.1, grade := grade,
              flags := r.2.1 }] })

/-- ScoringEngine.batch_score_entities: score each id in order against the
evolving database; an id whose scoring raises is skipped and the batch
continues. -/
def batch_score_entities (today : Int) (db : DB) (entity_ids : List Int) :
    DB × List ScoreResult :=
  entity_ids.foldl
    (fun acc eid =>
      match score_entity today acc.1 eid with
      | none => acc
      | some (r, db2) => (db2, acc.2 ++ [r]))
    (db, [])

/-- Decimal decoding step, the left inverse used to show that the decimal
rendering of a Nat is injective: 48 is the code of the zero digit. -/
def decDigit (acc : Nat) (c : Char) : Nat := acc * 10 + (c.toNat - 48)

/-- State extension order between traversal states: node entries are only
appended and the visited set only grows. -/
def Extends (a b : TraverseState) : Prop :=
  (∃ tl, b.nodes = a.nodes ++ tl) ∧ a.visited ⊆ b.visited

/-- Traversal invariant: every nodes entry is keyed by the node key of its
value, its (type, id) pair is in the visited set, its recorded depth is
between 0 and max_depth, and the dict keys are pairwise distinct. -/
def Inv (maxD : Int) (st : TraverseState) : Prop :=
  (∀ e ∈ st.nodes, e.1 = nodeKey e.2.type e.2.id
    ∧ (e.2.type, e.2.id) ∈ st.visited ∧ 0 ≤ e.2.depth ∧ e.2.depth ≤ maxD)
  ∧ List.Pairwise (fun a b => a.1 ≠ b.1) st.nodes

/-! Concrete fixtures used by witnesses and counterexamples. -/


/-- One active owns relationship from entity e1 to property p1, with
arbitrary row id, provenance, start date and confidence. -/
def relC2g (e1 p1 : Int) (rid : Nat) (src : String) (sd : Option Int)
    (conf : Option Rat) : Relationship :=
  { id := rid, from_type := "entity", from_id := e1, to_type := "property",
    to_id := p1, rel_type := "owns", source_system := src, start_date := sd,
    end_date := none, confidence := conf }

/-- A store whose only row is that owns relationship. -/
def storeC2g (e1 p1 : Int) (rid nid : Nat) (src : String) (sd : Option Int)
    (conf : Option Rat) : GraphStore :=
  { rels := [relC2g e1 p1 rid src sd conf], next_id := nid }


/-- A context with a zero-day-old entity at a crowded address. -/
def ctx7 : ScoringContext :=
  { entity := { id := 1, status := some "ACTIVE", formation_date := some 100,
                registered_agent_id := none, primary_address_id := some 5 },
    property_count := 0, entity_age_days := some 0,
    agent_entity_count := 0, address_entity_count := 6 }

/-- An active agent_for relationship row. -/
def relC4 : Relationship :=
  { id := 1, from_type := "entity", from_id := 1, to_type := "person",
    to_id := 9, rel_type := "agent_for", source_system := "sunbiz",
    start_date := none, end_date := none, confidence := some 1 }

/-- A store holding exactly relC4. -/
def storeC4 : GraphStore := { rels := [relC4], next_id := 2 }

/-- A dissolved entity with no address, agent or properties. -/
def ent1 : Entity :=
  { id := 7, status := some "DISSOLVED", formation_date := some 90,
    registered_agent_id := none, primary_address_id := none }

/-- A database holding only ent1. -/
def db1 : DB :=
  { entities := [ent1], graph := { rels := [], next_id := 1 },
    risk_scores := [] }

/-- A store with one active owns edge from entity 1 to property 101. -/
def storeC2 : GraphStore :=
  { rels := [{ id := 1, from_type := "entity", from_id := 1,
               to_type := "property", to_id := 101, rel_type := "owns",
               source_system := "marion_pa", start_date := none,
               end_date := none, confidence := none }],
    next_id := 2 }

/-- A store with one active self-loop edge on entity 1. -/
def storeC9 : GraphStore :=
  { rels := [{ id := 1, from_type := "entity", from_id := 1,
               to_type := "entity", to_id := 1, rel_type := "parent",
               source_system := "ingest", start_date := none,
               end_date := none, confidence := none }],
    next_id := 2 }

/-! Theorems. -/

/-- Claim C3: the grade mapping is a pure total function of the integer
score with inclusive upper bounds: scores up to 20 map to A, 21 to 40 to
B, 41 to 60 to C, 61 to 80 to D, and 81 upward to F. -/
theorem grade_score_thresholds (s : Int) :
    (grade_score s = "A" ↔ s ≤ 20)
    ∧ (grade_score s = "B" ↔ 21 ≤ s ∧ s ≤ 40)
    ∧ (grade_score s = "C" ↔ 41 ≤ s ∧ s ≤ 60)
    ∧ (grade_score s = "D" ↔ 61 ≤ s ∧ s ≤ 80)
    ∧ (grade_score s = "F" ↔ 81 ≤ s) := by
  unfold grade_score
  split_ifs with h1 h2 h3 h4 <;>
    refine ⟨?_, ?_, ?_, ?_, ?_⟩ <;> constructor <;> intro h <;>
      first
        | rfl
        | omega
        | (exfalso; omega)
        | (exfalso; revert h; decide)

/-- Claim C4: relationship creation is idempotent under
identity-while-active: when the store holds an active row with the same
identity tuple, create returns an existing matching row and leaves the
store unchanged. -/
theorem create_relationship_idempotent
    (s : GraphStore) (ft : String) (fi : Int) (tt : String) (ti : Int)
    (rt src : String) (sd ed : Option Int) (conf : Option Rat)
    (h : ∃ r ∈ s.rels, matchesActiveIdentity ft fi tt ti rt r = true) :
    ∃ r0, s.rels.find? (matchesActiveIdentity ft fi tt ti rt) = some r0
      ∧ r0 ∈ s.rels
      ∧ matchesActiveIdentity ft fi tt ti rt r0 = true
      ∧ create_relationship s ft fi tt ti rt src sd ed conf = (s, r0) := by
  obtain ⟨r, hr, hm⟩ := h
  have hsome : (s.rels.find? (matchesActiveIdentity ft fi tt ti rt)).isSome := by
    rw [List.find?_isSome]
    exact ⟨r, hr, hm⟩
  obtain ⟨r0, hr0⟩ := Option.isSome_iff_exists.mp hsome
  refine ⟨r0, hr0, List.mem_of_find?_eq_some hr0, List.find?_some hr0, ?_⟩
  unfold create_relationship
  rw [hr0]

/-- Witness for C4 at a concrete store: creating the already-present
active agent_for edge returns the stored row and does not grow the
store. -/
theorem create_relationship_idempotent_witness :
    ∃ r0, storeC4.rels.find? (matchesActiveIdentity "entity" 1 "person" 9 "agent_for") = some r0
      ∧ r0 ∈ storeC4.rels
      ∧ matchesActiveIdentity "entity" 1 "person" 9 "agent_for" r0 = true
      ∧ create_relationship storeC4 "entity" 1 "person" 9 "agent_for" "sunbiz" none none none = (storeC4, r0) :=
  create_relationship_idempotent storeC4 "entity" 1 "person" 9 "agent_for"
    "sunbiz" none none none ⟨relC4, by decide, by decide⟩

/-- Claim C10: the duplicate check compares only the identity tuple; when
it hits, the stored row is returned with its original source_system,
confidence, start_date and end_date, whatever values the new call
supplied. -/
theorem create_relationship_ignores_non_identity
    (s : GraphStore) (ft : String) (fi : Int) (tt : String) (ti : Int)
    (rt : String) (r0 : Relationship)
    (h : s.rels.find? (matchesActiveIdentity ft fi tt ti rt) = some r0) :
    ∀ (src : String) (sd ed : Option Int) (conf : Option Rat),
      create_relationship s ft fi tt ti rt src sd ed conf = (s, r0)
      ∧ (create_relationship s ft fi tt ti rt src sd ed conf).2.source_system = r0.source_system
      ∧ (create_relationship s ft fi tt ti rt src sd ed conf).2.confidence = r0.confidence
      ∧ (create_relationship s ft fi tt ti rt src sd ed conf).2.start_date = r0.start_date
      ∧ (create_relationship s ft fi tt ti rt src sd ed conf).2.end_date = r0.end_date := by
  intro src sd ed conf
  unfold create_relationship
  rw [h]
  exact ⟨rfl, rfl, rfl, rfl, rfl⟩

/-- Witness for C10: supplying a different source system, dates and a
different confidence returns the stored row unchanged. -/
theorem create_relationship_ignores_non_identity_witness :
    create_relationship storeC4 "entity" 1 "person" 9 "agent_for"
        "marion_pa" (some 7) none (some (1 / 2)) = (storeC4, relC4)
      ∧ (create_relationship storeC4 "entity" 1 "person" 9 "agent_for"
          "marion_pa" (some 7) none (some (1 / 2))).2.source_system = relC4.source_system
      ∧ (create_relationship storeC4 "entity" 1 "person" 9 "agent_for"
          "marion_pa" (some 7) none (some (1 / 2))).2.confidence = relC4.confidence
      ∧ (create_relationship storeC4 "entity" 1 "person" 9 "agent_for"
          "marion_pa" (some 7) none (some (1 / 2))).2.start_date = relC4.start_date
      ∧ (create_relationship storeC4 "entity" 1 "person" 9 "agent_for"
          "marion_pa" (some 7) none (some (1 / 2))).2.end_date = relC4.end_date :=
  create_relationship_ignores_non_identity storeC4 "entity" 1 "person" 9
    "agent_for" relC4 (by decide) "marion_pa" (some 7) none (some (1 / 2))

/-- Counterexample to claim C8 as stated: supplying confidence 0.0 on a
fresh insert stores 1.0, not the supplied 0.0 (Python `confidence or
1.0` treats 0.0 as falsy). -/
theorem create_relationship_zero_confidence_cex :
    ((create_relationship { rels := [], next_id := 1 } "entity" 1 "property" 2
        "owns" "ingest" none none (some 0)).2.confidence = some 1)
    ∧ ¬((create_relationship { rels := [], next_id := 1 } "entity" 1 "property" 2
        "owns" "ingest" none none (some 0)).2.confidence = some 0) := by
  decide

/-- Claim C8 as amended: on a fresh insert, an omitted confidence is
stored as 1.0; a supplied nonzero value is stored as given; a supplied
0.0 is falsy in the `or` default and is also stored as 1.0. -/
theorem create_relationship_confidence_default
    (s : GraphStore) (ft : String) (fi : Int) (tt : String) (ti : Int)
    (rt src : String) (sd ed : Option Int)
    (h : s.rels.find? (matchesActiveIdentity ft fi tt ti rt) = none) :
    ((create_relationship s ft fi tt ti rt src sd ed none).2.confidence = some 1)
    ∧ (∀ c : Rat, c ≠ 0 →
        (create_relationship s ft fi tt ti rt src sd ed (some c)).2.confidence = some c)
    ∧ ((create_relationship s ft fi tt ti rt src sd ed (some 0)).2.confidence = some 1) := by
  refine ⟨?_, ?_, ?_⟩
  · unfold create_relationship
    rw [h]
    rfl
  · intro c hc
    unfold create_relationship
    rw [h]
    show some (confidenceOrOne (some c)) = some c
    simp only [confidenceOrOne]
    rw [if_neg hc]
  · unfold create_relationship
    rw [h]
    show some (confidenceOrOne (some 0)) = some 1
    decide

/-- Witness for C8 (amended) on the empty store: omitted confidence is
stored as 1.0. -/
theorem create_relationship_confidence_default_witness :
    (create_relationship { rels := [], next_id := 1 } "entity" 1 "property" 2
      "owns" "ingest" none none none).2.confidence = some 1 :=
  (create_relationship_confidence_default { rels := [], next_id := 1 }
    "entity" 1 "property" 2 "owns" "ingest" none none (by decide)).1

/-- Claim C7 (code bug): for an entity aged exactly 0 days at an address
shared by more than 5 entities, the spec condition
(address_entity_count > 5 and age < 180) holds, yet the embedded source
rule does not trigger, because the zero age is falsy in the Python
conjunction. -/
theorem ADDRESS_GT_5_ENTITIES_NEW_age_zero_bug :
    ADDRESS_GT_5_ENTITIES_NEW.fn ctx7 = false
    ∧ ctx7.address_entity_count > 5
    ∧ ctx7.entity_age_days = some 0
    ∧ ((0 : Int) < 180) := by
  decide

/-- The rule evaluation loop equals sum, names and details of the
triggered-rule subsequence, in list order. -/
theorem evalRules_eq (rules : List ScoringRule) (ctx : ScoringContext) :
    evalRules rules ctx
      = (((rules.filter (fun r => r.fn ctx)).map (fun r => r.weight)).sum,
         (rules.filter (fun r => r.fn ctx)).map (fun r => r.name),
         (rules.filter (fun r => r.fn ctx)).map detailOf) := by
  have main : ∀ (rs : List ScoringRule) (sc : Int) (fl : List String)
      (dt : List RuleDetail),
      rs.foldl
        (fun acc rule =>
          if rule.fn ctx then
            (acc.1 + rule.weight, acc.2.1 ++ [rule.name], acc.2.2 ++ [detailOf rule])
          else acc)
        (sc, fl, dt)
      = (sc + ((rs.filter (fun r => r.fn ctx)).map (fun r => r.weight)).sum,
         fl ++ (rs.filter (fun r => r.fn ctx)).map (fun r => r.name),
         dt ++ (rs.filter (fun r => r.fn ctx)).map detailOf) := by
    intro rs
    induction rs with
    | nil => intro sc fl dt; simp
    | cons r rs ih =>
      intro sc fl dt
      cases hfn : r.fn ctx with
      | true =>
        simp only [List.foldl_cons, hfn, ↓reduceIte, List.filter_cons,
          List.map_cons, List.sum_cons, ih]
        simp [Prod.mk.injEq, add_assoc, List.append_assoc]
      | false =>
        simp only [List.foldl_cons, hfn, Bool.false_eq_true, ↓reduceIte,
          List.filter_cons, ih]
  unfold evalRules
  rw [main]
  simp

/-- Claim C1: for every entity that exists, score_entity returns score
equal to the sum of the weights of exactly the triggered rules and flags
equal to their names in registration order, and persists a RiskScore row
with those flags; untriggered rules contribute nothing. -/
theorem score_entity_triggered_sum
    (today : Int) (db : DB) (eid : Int) (ent : Entity)
    (h : db.entities.find? (fun e => e.id == eid) = some ent) :
    ∃ res db2, score_entity today db eid = some (res, db2)
      ∧ res.score = ((default_rules.filter
          (fun r => r.fn (build_context today db ent))).map (fun r => r.weight)).sum
      ∧ res.flags = (default_rules.filter
          (fun r => r.fn (build_context today db ent))).map (fun r => r.name)
      ∧ db2.risk_scores = db.risk_scores ++
          [{ entity_id := eid, score := res.score,
             grade := grade_score res.score, flags := res.flags }]
      ∧ db2.entities = db.entities ∧ db2.graph = db.graph := by
  unfold score_entity
  rw [h]
  simp only [evalRules_eq]
  refine ⟨_, _, rfl, ?_, ?_, ?_, ?_, ?_⟩ <;> rfl

/-- Witness for C1 on a one-entity database. -/
theorem score_entity_triggered_sum_witness :
    ∃ res db2, score_entity 100 db1 7 = some (res, db2)
      ∧ res.score = ((default_rules.filter
          (fun r => r.fn (build_context 100 db1 ent1))).map (fun r => r.weight)).sum
      ∧ res.flags = (default_rules.filter
          (fun r => r.fn (build_context 100 db1 ent1))).map (fun r => r.name)
      ∧ db2.risk_scores = db1.risk_scores ++
          [{ entity_id := 7, score := res.score,
             grade := grade_score res.score, flags := res.flags }]
      ∧ db2.entities = db1.entities ∧ db2.graph = db1.graph :=
  score_entity_triggered_sum 100 db1 7 ent1 (by decide)

/-- A successful scoring result carries the requested entity id. -/
theorem score_entity_some_id (today : Int) (db : DB) (eid : Int)
    (r : ScoreResult) (db2 : DB)
    (h : score_entity today db eid = some (r, db2)) : r.entity_id = eid := by
  unfold score_entity at h
  cases hf : db.entities.find? (fun e => e.id == eid) with
  | none => rw [hf] at h; exact absurd h (by simp)
  | some ent =>
    rw [hf] at h
    have h2 := Option.some.inj h
    exact (congrArg (fun p => p.1.entity_id) h2).symm

/-- Scoring a missing entity raises (returns none) before touching the
database. -/
theorem score_entity_none (today : Int) (db : DB) (eid : Int)
    (h : db.entities.find? (fun e => e.id == eid) = none) :
    score_entity today db eid = none := by
  unfold score_entity
  rw [h]

/-- Successful scoring only appends a RiskScore row: the entities table
is unchanged, so which ids are scorable does not change during a
batch. -/
theorem score_entity_preserves_entities (today : Int) (db : DB) (eid : Int)
    (r : ScoreResult) (db2 : DB)
    (h : score_entity today db eid = some (r, db2)) :
    db2.entities = db.entities := by
  unfold score_entity at h
  cases hf : db.entities.find? (fun e => e.id == eid) with
  | none => rw [hf] at h; exact absurd h (by simp)
  | some ent =>
    rw [hf] at h
    have h2 := Option.some.inj h
    exact (congrArg (fun p => p.2.entities) h2).symm

/-- An id with no entity is a no-op anywhere in the batch fold: the fold
continues over the remaining ids from an unchanged state. -/
theorem batch_skip_aux (today : Int) (bad : Int) :
    ∀ (ids1 : List Int) (db0 : DB) (acc : List ScoreResult) (ids2 : List Int),
      db0.entities.find? (fun e => e.id == bad) = none →
      (ids1 ++ bad :: ids2).foldl
        (fun acc eid =>
          match score_entity today acc.1 eid with
          | none => acc
          | some (r, db2) => (db2, acc.2 ++ [r]))
        (db0, acc)
      = (ids1 ++ ids2).foldl
        (fun acc eid =>
          match score_entity today acc.1 eid with
          | none => acc
          | some (r, db2) => (db2, acc.2 ++ [r]))
        (db0, acc) := by
  intro ids1
  induction ids1 with
  | nil =>
    intro db0 acc ids2 h
    have hs := score_entity_none today db0 bad h
    simp only [List.nil_append, List.foldl_cons, hs]
  | cons e ids1 ih =>
    intro db0 acc ids2 h
    simp only [List.cons_append, List.foldl_cons]
    cases hs : score_entity today db0 e with
    | none =>
      simp only [hs]
      exact ih db0 acc ids2 h
    | some p =>
      obtain ⟨r0, db2⟩ := p
      simp only [hs]
      apply ih db2 (acc ++ [r0]) ids2
      rw [score_entity_preserves_entities today db0 e r0 db2 hs]
      exact h

/-- Claim C6: batch scoring is partial-failure tolerant: the output is at
most as long as the input and every returned result carries an entity id
from the input list, and an id whose scoring raises (its entity does not
exist) is skipped without aborting the batch - the batch result on
ids1 ++ [bad] ++ ids2 equals the batch result on ids1 ++ ids2, so the
ids after the failure are still scored and exactly the successfully
scored subset is returned. -/
theorem batch_score_entities_partial (today : Int) (db : DB) (ids : List Int) :
    ((batch_score_entities today db ids).2.length ≤ ids.length
      ∧ ∀ r ∈ (batch_score_entities today db ids).2, r.entity_id ∈ ids)
    ∧ (∀ (ids1 : List Int) (bad : Int) (ids2 : List Int),
        db.entities.find? (fun e => e.id == bad) = none →
        batch_score_entities today db (ids1 ++ bad :: ids2)
          = batch_score_entities today db (ids1 ++ ids2)) := by
  have main : ∀ (l : List Int) (db0 : DB) (acc : List ScoreResult),
      (l.foldl
        (fun acc eid =>
          match score_entity today acc.1 eid with
          | none => acc
          | some (r, db2) => (db2, acc.2 ++ [r]))
        (db0, acc)).2.length ≤ acc.length + l.length
      ∧ ∀ r ∈ (l.foldl
          (fun acc eid =>
            match score_entity today acc.1 eid with
            | none => acc
            | some (r, db2) => (db2, acc.2 ++ [r]))
          (db0, acc)).2, r ∈ acc ∨ r.entity_id ∈ l := by
    intro l
    induction l with
    | nil =>
      intro db0 acc
      constructor
      · simp
      · intro r hr
        exact Or.inl hr
    | cons eid l ih =>
      intro db0 acc
      simp only [List.foldl_cons]
      cases hs : score_entity today db0 eid with
      | none =>
        simp only [hs]
        refine ⟨le_trans (ih db0 acc).1 (by simp), ?_⟩
        intro r hr
        rcases (ih db0 acc).2 r hr with h | h
        · exact Or.inl h
        · exact Or.inr (List.mem_cons_of_mem _ h)
      | some p =>
        obtain ⟨r0, db2⟩ := p
        simp only [hs]
        constructor
        · refine le_trans (ih db2 (acc ++ [r0])).1 ?_
          simp only [List.length_append, List.length_cons, List.length_nil]
          omega
        · intro r hr
          rcases (ih db2 (acc ++ [r0])).2 r hr with h | h
          · rcases List.mem_append.mp h with h2 | h2
            · exact Or.inl h2
            · have hr0 : r = r0 := by simpa using h2
              subst hr0
              have hid := score_entity_some_id today db0 eid r db2 hs
              rw [hid]
              exact Or.inr (List.mem_cons_self _ _)
          · exact Or.inr (List.mem_cons_of_mem _ h)
  have h := main ids db []
  refine ⟨⟨?_, ?_⟩, ?_⟩
  · unfold batch_score_entities
    exact le_trans h.1 (by simp)
  · unfold batch_score_entities
    intro r hr
    rcases h.2 r hr with h2 | h2
    · exact absurd h2 (List.not_mem_nil r)
    · exact h2
  · intro ids1 bad ids2 hbad
    unfold batch_score_entities
    exact batch_skip_aux today bad ids1 db [] ids2 hbad

/-- The character of a decimal digit has the code 48 plus its value. -/
theorem digitChar_toNat (m : Nat) (h : m < 10) : (Nat.digitChar m).toNat = 48 + m := by
  interval_cases m <;> rfl

/-- Folding the decimal decoder over the digits that toDigitsCore
prepends recovers the encoded number. -/
theorem toDigitsCore_foldl (fuel : Nat) : ∀ (n : Nat) (ds : List Char), n < 10 ^ fuel →
    (Nat.toDigitsCore 10 fuel n ds).foldl decDigit 0 = ds.foldl decDigit n := by
  induction fuel with
  | zero =>
    intro n ds h
    interval_cases n
    rfl
  | succ fuel ih =>
    intro n ds h
    simp only [Nat.toDigitsCore]
    by_cases h10 : n / 10 = 0
    · rw [if_pos h10]
      simp only [List.foldl_cons]
      have hd : decDigit 0 (Nat.digitChar (n % 10)) = n := by
        unfold decDigit
        rw [digitChar_toNat _ (Nat.mod_lt _ (by norm_num))]
        omega
      rw [hd]
    · rw [if_neg h10]
      have hlt : n / 10 < 10 ^ fuel := by
        have : (10 : Nat) ^ (fuel + 1) = 10 ^ fuel * 10 := by ring
        omega
      rw [ih (n / 10) (Nat.digitChar (n % 10) :: ds) hlt]
      simp only [List.foldl_cons]
      congr 1
      unfold decDigit
      rw [digitChar_toNat _ (Nat.mod_lt _ (by norm_num))]
      omega

/-- The decimal decoder inverts Nat.repr. -/
theorem natRepr_foldl (n : Nat) : (Nat.repr n).data.foldl decDigit 0 = n := by
  show (Nat.toDigits 10 n).foldl decDigit 0 = n
  unfold Nat.toDigits
  refine toDigitsCore_foldl (n + 1) n [] ?_
  calc n < 10 ^ n := Nat.lt_pow_self (by norm_num) n
  _ ≤ 10 ^ (n + 1) := Nat.pow_le_pow_right (by norm_num) (Nat.le_succ n)

/-- The decimal rendering of a Nat is injective. -/
theorem natRepr_injective {m n : Nat} (h : Nat.repr m = Nat.repr n) : m = n := by
  have h2 := congrArg (fun s => s.data.foldl decDigit 0) h
  simpa [natRepr_foldl] using h2

/-- Every character toDigitsCore prepends is a decimal digit. -/
theorem toDigitsCore_mem (fuel : Nat) : ∀ (n : Nat) (ds : List Char) (c : Char),
    c ∈ Nat.toDigitsCore 10 fuel n ds → c ∈ ds ∨ (48 ≤ c.toNat ∧ c.toNat ≤ 57) := by
  induction fuel with
  | zero => intro n ds c hc; exact Or.inl hc
  | succ fuel ih =>
    intro n ds c hc
    simp only [Nat.toDigitsCore] at hc
    by_cases h10 : n / 10 = 0
    · rw [if_pos h10] at hc
      rcases List.mem_cons.mp hc with h | h
      · right
        subst h
        rw [digitChar_toNat _ (Nat.mod_lt _ (by norm_num))]
        omega
      · exact Or.inl h
    · rw [if_neg h10] at hc
      rcases ih _ _ _ hc with h | h
      · rcases List.mem_cons.mp h with h2 | h2
        · right
          subst h2
          rw [digitChar_toNat _ (Nat.mod_lt _ (by norm_num))]
          omega
        · exact Or.inl h2
      · exact Or.inr h

/-- Every character of the decimal rendering of a Nat is a digit. -/
theorem natRepr_digits (n : Nat) : ∀ c ∈ (Nat.repr n).data, 48 ≤ c.toNat ∧ c.toNat ≤ 57 := by
  intro c hc
  rcases toDigitsCore_mem (n + 1) n [] c hc with h | h
  · exact absurd h (List.not_mem_nil c)
  · exact h

/-- The decimal rendering of a Nat is never empty. -/
theorem natRepr_ne_nil (n : Nat) : (Nat.repr n).data ≠ [] := by
  intro h
  have h0 := natRepr_foldl n
  rw [h] at h0
  simp only [List.foldl_nil] at h0
  rw [← h0] at h
  revert h
  decide

/-- The decimal rendering of an Int never contains a colon. -/
theorem intRepr_no_colon (i : Int) : ':' ∉ (Int.repr i).data := by
  intro hc
  cases i with
  | ofNat m =>
    have h := natRepr_digits m ':' hc
    revert h
    decide
  | negSucc m =>
    have hd : (Int.repr (Int.negSucc m)).data = '-' :: (Nat.repr (m + 1)).data := rfl
    rw [hd] at hc
    rcases List.mem_cons.mp hc with h | h
    · exact absurd h (by decide)
    · have h2 := natRepr_digits (m + 1) ':' h
      revert h2
      decide

/-- The decimal rendering of an Int is injective. -/
theorem intRepr_injective {i j : Int} (h : Int.repr i = Int.repr j) : i = j := by
  cases i with
  | ofNat m =>
    cases j with
    | ofNat n => exact congrArg Int.ofNat (natRepr_injective h)
    | negSucc n =>
      exfalso
      have hd := congrArg String.data h
      have hd2 : (Nat.repr m).data = '-' :: (Nat.repr (n + 1)).data := hd
      have hhead : '-' ∈ (Nat.repr m).data := by
        rw [hd2]
        exact List.mem_cons_self _ _
      have h2 := natRepr_digits m '-' hhead
      revert h2
      decide
  | negSucc m =>
    cases j with
    | ofNat n =>
      exfalso
      have hd := congrArg String.data h
      have hd2 : '-' :: (Nat.repr (m + 1)).data = (Nat.repr n).data := hd
      have hhead : '-' ∈ (Nat.repr n).data := by
        rw [← hd2]
        exact List.mem_cons_self _ _
      have h2 := natRepr_digits n '-' hhead
      revert h2
      decide
    | negSucc n =>
      have hd := congrArg String.data h
      have hd2 : '-' :: (Nat.repr (m + 1)).data = '-' :: (Nat.repr (n + 1)).data := hd
      have hd3 : (Nat.repr (m + 1)).data = (Nat.repr (n + 1)).data := by
        injection hd2
      have h4 := natRepr_injective (String.ext hd3)
      have h5 : m = n := by omega
      rw [h5]

/-- toString on Int agrees with Int.repr. -/
theorem toString_int_eq (i : Int) : toString i = Int.repr i := by
  cases i <;> rfl

/-- Splitting two equal lists at a separator absent from both suffixes. -/
theorem append_sep_inj : ∀ (a1 : List Char) {b1 : List Char} (a2 : List Char) {b2 : List Char},
    a1 ++ ':' :: b1 = a2 ++ ':' :: b2 → ':' ∉ b1 → ':' ∉ b2 → a1 = a2 ∧ b1 = b2 := by
  intro a1
  induction a1 with
  | nil =>
    intro b1 a2 b2 h h1 h2
    cases a2 with
    | nil =>
      simp only [List.nil_append] at h
      exact ⟨rfl, by injection h⟩
    | cons x a2 =>
      exfalso
      simp only [List.nil_append, List.cons_append] at h
      injection h with hx hrest
      apply h1
      rw [hrest]
      exact List.mem_append_right _ (List.mem_cons_self _ _)
  | cons x a1 ih =>
    intro b1 a2 b2 h h1 h2
    cases a2 with
    | nil =>
      exfalso
      simp only [List.cons_append, List.nil_append] at h
      injection h with hx hrest
      apply h2
      rw [← hrest]
      exact List.mem_append_right _ (List.mem_cons_self _ _)
    | cons y a2 =>
      simp only [List.cons_append] at h
      injection h with hx hrest
      obtain ⟨ha, hb⟩ := ih a2 hrest h1 h2
      refine ⟨?_, hb⟩
      rw [hx, ha]

/-- The Python f-string node key determines the (type, id) pair: integer
ids render without a colon, so the text after the last colon is the id
and the text before it the type. -/
theorem nodeKey_inj {t1 t2 : String} {i1 i2 : Int}
    (h : nodeKey t1 i1 = nodeKey t2 i2) : t1 = t2 ∧ i1 = i2 := by
  unfold nodeKey at h
  have hd := congrArg String.data h
  simp only [String.data_append] at hd
  rw [List.append_assoc, List.append_assoc] at hd
  simp only [List.singleton_append] at hd
  have h1 : ':' ∉ (toString i1).data := by
    rw [toString_int_eq]
    exact intRepr_no_colon i1
  have h2 : ':' ∉ (toString i2).data := by
    rw [toString_int_eq]
    exact intRepr_no_colon i2
  obtain ⟨ht, hi⟩ := append_sep_inj t1.data t2.data hd h1 h2
  refine ⟨String.ext ht, ?_⟩
  have h3 : toString i1 = toString i2 := String.ext hi
  rw [toString_int_eq, toString_int_eq] at h3
  exact intRepr_injective h3


/-- Extension is reflexive. -/
theorem Extends_rfl (a : TraverseState) : Extends a a :=
  ⟨⟨[], (List.append_nil _).symm⟩, fun _ hx => hx⟩

/-- Extension is transitive. -/
theorem Extends_trans {a b c : TraverseState} (h1 : Extends a b)
    (h2 : Extends b c) : Extends a c := by
  obtain ⟨⟨t1, ht1⟩, s1⟩ := h1
  obtain ⟨⟨t2, ht2⟩, s2⟩ := h2
  exact ⟨⟨t1 ++ t2, by rw [ht2, ht1, List.append_assoc]⟩, fun x hx => s2 (s1 hx)⟩

/-- A fold whose step preserves a predicate and extends the state
preserves the predicate and extends the state. -/
theorem foldl_preserves {α : Type} (step : TraverseState → α → TraverseState)
    (P : TraverseState → Prop)
    (hstep : ∀ st a, P st → P (step st a) ∧ Extends st (step st a)) :
    ∀ (l : List α) (st : TraverseState),
      P st → P (l.foldl step st) ∧ Extends st (l.foldl step st) := by
  intro l
  induction l with
  | nil => intro st h; exact ⟨h, Extends_rfl st⟩
  | cons a l ih =>
    intro st h
    obtain ⟨h1, h2⟩ := hstep st a h
    obtain ⟨h3, h4⟩ := ih (step st a) h1
    exact ⟨h3, Extends_trans h2 h4⟩

/-- The traverse closure preserves the invariant and only extends the
state, for every fuel value: the guard inserts a node only when its pair
is unvisited, and by nodeKey_inj its dict key is then fresh, so the entry
is appended, recorded at the current depth, which the guard bounds by
max_depth. -/
theorem traverse_inv (s : GraphStore) (rts : Option (List String)) (maxD : Int) :
    ∀ (fuel : Nat) (t : String) (i : Int) (d : Int) (st : TraverseState),
      0 ≤ d → Inv maxD st →
      Inv maxD (traverse s rts maxD fuel t i d st)
      ∧ Extends st (traverse s rts maxD fuel t i d st) := by
  intro fuel
  induction fuel with
  | zero => intro t i d st _ hInv; exact ⟨hInv, Extends_rfl _⟩
  | succ fuel ih =>
    intro t i d st hd hInv
    rw [traverse]
    by_cases hguard : d > maxD ∨ (t, i) ∈ st.visited
    · rw [if_pos hguard]
      exact ⟨hInv, Extends_rfl _⟩
    · rw [if_neg hguard]
      push_neg at hguard
      obtain ⟨hdle, hvis⟩ := hguard
      have hfresh : ∀ e ∈ st.nodes, e.1 ≠ nodeKey t i := by
        intro e he heq
        obtain ⟨hke, hmem, _, _⟩ := hInv.1 e he
        rw [hke] at heq
        obtain ⟨ht2, hi2⟩ := nodeKey_inj heq
        apply hvis
        rw [← ht2, ← hi2]
        exact hmem
      have hins : dictInsert st.nodes (nodeKey t i)
            ({ type := t, id := i, depth := d } : NodeView)
          = st.nodes ++ [(nodeKey t i, ({ type := t, id := i, depth := d } : NodeView))] := by
        unfold dictInsert
        rw [if_neg]
        rw [List.any_eq_true]
        rintro ⟨e, he, hbe⟩
        exact hfresh e he (by simpa using hbe)
      have hInv1 : Inv maxD
          { st with
            visited := (t, i) :: st.visited,
            nodes := dictInsert st.nodes (nodeKey t i)
              ({ type := t, id := i, depth := d } : NodeView) } := by
        constructor
        · intro e he
          rw [hins] at he
          rcases List.mem_append.mp he with h | h
          · obtain ⟨h1, h2, h3, h4⟩ := hInv.1 e h
            exact ⟨h1, List.mem_cons_of_mem _ h2, h3, h4⟩
          · have he2 : e = (nodeKey t i, ({ type := t, id := i, depth := d } : NodeView)) := by
              simpa using h
            subst he2
            exact ⟨rfl, List.mem_cons_self _ _, hd, hdle⟩
        · show List.Pairwise _ (dictInsert st.nodes (nodeKey t i) _)
          rw [hins]
          rw [List.pairwise_append]
          refine ⟨hInv.2, List.pairwise_singleton _ _, ?_⟩
          intro a ha b hb
          have hb2 : b = (nodeKey t i, ({ type := t, id := i, depth := d } : NodeView)) := by
            simpa using hb
          subst hb2
          exact hfresh a ha
      have hExt1 : Extends st
          { st with
            visited := (t, i) :: st.visited,
            nodes := dictInsert st.nodes (nodeKey t i)
              ({ type := t, id := i, depth := d } : NodeView) } := by
        refine ⟨⟨[(nodeKey t i, ({ type := t, id := i, depth := d } : NodeView))], ?_⟩, ?_⟩
        · exact hins
        · exact fun x hx => List.mem_cons_of_mem _ hx
      have hstepOut : ∀ (st2 : TraverseState) (r : Relationship), Inv maxD st2 →
          Inv maxD (if relTypesBlocks rts r.rel_type then st2
            else traverse s rts maxD fuel r.to_type r.to_id (d + 1)
              { st2 with edges := st2.edges ++ [outEdgeView t i r] })
          ∧ Extends st2 (if relTypesBlocks rts r.rel_type then st2
            else traverse s rts maxD fuel r.to_type r.to_id (d + 1)
              { st2 with edges := st2.edges ++ [outEdgeView t i r] }) := by
        intro st2 r h2
        by_cases hb : relTypesBlocks rts r.rel_type = true
        · rw [if_pos hb]
          exact ⟨h2, Extends_rfl _⟩
        · rw [if_neg hb]
          obtain ⟨h3, h4⟩ := ih r.to_type r.to_id (d + 1)
            { st2 with edges := st2.edges ++ [outEdgeView t i r] } (by omega) h2
          refine ⟨h3, Extends_trans ?_ h4⟩
          exact ⟨⟨[], (List.append_nil _).symm⟩, fun x hx => hx⟩
      have hstepIn : ∀ (st2 : TraverseState) (r : Relationship), Inv maxD st2 →
          Inv maxD (if relTypesBlocks rts r.rel_type then st2
            else traverse s rts maxD fuel r.from_type r.from_id (d + 1)
              { st2 with edges := st2.edges ++ [inEdgeView t i r] })
          ∧ Extends st2 (if relTypesBlocks rts r.rel_type then st2
            else traverse s rts maxD fuel r.from_type r.from_id (d + 1)
              { st2 with edges := st2.edges ++ [inEdgeView t i r] }) := by
        intro st2 r h2
        by_cases hb : relTypesBlocks rts r.rel_type = true
        · rw [if_pos hb]
          exact ⟨h2, Extends_rfl _⟩
        · rw [if_neg hb]
          obtain ⟨h3, h4⟩ := ih r.from_type r.from_id (d + 1)
            { st2 with edges := st2.edges ++ [inEdgeView t i r] } (by omega) h2
          refine ⟨h3, Extends_trans ?_ h4⟩
          exact ⟨⟨[], (List.append_nil _).symm⟩, fun x hx => hx⟩
      obtain ⟨hInv2, hExt2⟩ := foldl_preserves _ (Inv maxD) hstepOut
        (get_outgoing_relationships s t i none true)
        { st with
          visited := (t, i) :: st.visited,
          nodes := dictInsert st.nodes (nodeKey t i)
            ({ type := t, id := i, depth := d } : NodeView) }
        hInv1
      obtain ⟨hInv3, hExt3⟩ := foldl_preserves _ (Inv maxD) hstepIn
        (get_incoming_relationships s t i none true) _ hInv2
      exact ⟨hInv3, Extends_trans hExt1 (Extends_trans hExt2 hExt3)⟩

/-- Claim C5: for every stored graph, root, maxDepth and filter, the
returned nodes map has at most one entry per (type, id) pair, every
recorded depth lies between 0 and maxDepth, and from any state
satisfying the invariant the traversal only appends node entries - an
entry is written at its first visit and never modified, so each node is
visited at most once however many paths reach it. -/
theorem find_connected_entities_visits_once (s : GraphStore) (root : Int)
    (maxD : Int) (rts : Option (List String)) :
    List.Pairwise (fun a b => ¬(a.2.type = b.2.type ∧ a.2.id = b.2.id))
      (find_connected_entities s root maxD rts).nodes
    ∧ (∀ e ∈ (find_connected_entities s root maxD rts).nodes,
        0 ≤ e.2.depth ∧ e.2.depth ≤ maxD)
    ∧ (∀ (fuel : Nat) (t : String) (i : Int) (d : Int) (st : TraverseState),
        0 ≤ d → Inv maxD st →
        ∃ tl, (traverse s rts maxD fuel t i d st).nodes = st.nodes ++ tl) := by
  have hInv0 : Inv maxD { visited := [], nodes := [], edges := [] } := by
    constructor
    · intro e he
      exact absurd he (List.not_mem_nil e)
    · exact List.Pairwise.nil
  obtain ⟨hInv, _⟩ := traverse_inv s rts maxD (fuelFor s) "entity" root 0
    { visited := [], nodes := [], edges := [] } le_rfl hInv0
  refine ⟨?_, ?_, ?_⟩
  · refine hInv.2.imp_of_mem ?_
    intro a b ha hb hr
    rintro ⟨hty, hid⟩
    obtain ⟨hka, _, _, _⟩ := hInv.1 a ha
    obtain ⟨hkb, _, _, _⟩ := hInv.1 b hb
    apply hr
    rw [hka, hkb, hty, hid]
  · intro e he
    obtain ⟨_, _, h3, h4⟩ := hInv.1 e he
    exact ⟨h3, h4⟩
  · intro fuel t i d st hd hInvSt
    exact (traverse_inv s rts maxD fuel t i d st hd hInvSt).2.1


/-- Past the depth bound the traverse closure returns its state
unchanged, whatever fuel remains. -/
theorem traverse_stop (s : GraphStore) (rts : Option (List String)) (maxD : Int)
    (fuel : Nat) (t : String) (i : Int) (d : Int) (st : TraverseState)
    (h : d > maxD) : traverse s rts maxD fuel t i d st = st := by
  cases fuel with
  | zero => rfl
  | succ fuel => rw [traverse, if_pos (Or.inl h)]

/-- With no rel_type filter and the next depth past the bound, the
outgoing loop only appends one edge view per relationship. -/
theorem foldl_out_edges (s : GraphStore) (maxD : Int) (fuel : Nat) (d : Int)
    (t : String) (i : Int) (h : d > maxD) :
    ∀ (l : List Relationship) (st : TraverseState),
      l.foldl (fun acc r =>
        if relTypesBlocks none r.rel_type then acc
        else traverse s none maxD fuel r.to_type r.to_id d
          { acc with edges := acc.edges ++ [outEdgeView t i r] }) st
      = { st with edges := st.edges ++ l.map (outEdgeView t i) } := by
  intro l
  induction l with
  | nil => intro st; simp
  | cons r l ih =>
    intro st
    rw [List.foldl_cons]
    show List.foldl _ (if relTypesBlocks none r.rel_type then st
        else traverse s none maxD fuel r.to_type r.to_id d
          { st with edges := st.edges ++ [outEdgeView t i r] }) l = _
    rw [if_neg (by simp [relTypesBlocks])]
    rw [traverse_stop s none maxD fuel r.to_type r.to_id d _ h]
    rw [ih]
    simp

/-- With no rel_type filter and the next depth past the bound, the
incoming loop only appends one edge view per relationship. -/
theorem foldl_in_edges (s : GraphStore) (maxD : Int) (fuel : Nat) (d : Int)
    (t : String) (i : Int) (h : d > maxD) :
    ∀ (l : List Relationship) (st : TraverseState),
      l.foldl (fun acc r =>
        if relTypesBlocks none r.rel_type then acc
        else traverse s none maxD fuel r.from_type r.from_id d
          { acc with edges := acc.edges ++ [inEdgeView t i r] }) st
      = { st with edges := st.edges ++ l.map (inEdgeView t i) } := by
  intro l
  induction l with
  | nil => intro st; simp
  | cons r l ih =>
    intro st
    rw [List.foldl_cons]
    show List.foldl _ (if relTypesBlocks none r.rel_type then st
        else traverse s none maxD fuel r.from_type r.from_id d
          { st with edges := st.edges ++ [inEdgeView t i r] }) l = _
    rw [if_neg (by simp [relTypesBlocks])]
    rw [traverse_stop s none maxD fuel r.from_type r.from_id d _ h]
    rw [ih]
    simp

/-- Claim C9 as amended: with maxDepth 0 the result holds exactly the
root node at depth 0, and the edges are one EdgeView per active
relationship with the root as from endpoint plus one per active
relationship with the root as to endpoint, in that order - a self-loop
is emitted twice; no neighbor node is added and no neighbor
relationships are enumerated. -/
theorem find_connected_entities_depth_zero (s : GraphStore) (root : Int) :
    (find_connected_entities s root 0 none).nodes
      = [(nodeKey "entity" root, ({ type := "entity", id := root, depth := 0 } : NodeView))]
    ∧ (find_connected_entities s root 0 none).edges
      = (get_outgoing_relationships s "entity" root none true).map (outEdgeView "entity" root)
        ++ (get_incoming_relationships s "entity" root none true).map (inEdgeView "entity" root)
    ∧ (find_connected_entities s root 0 none).total_nodes = 1 := by
  have hmain : traverse s none 0 (fuelFor s) "entity" root 0
        { visited := [], nodes := [], edges := [] }
      = { visited := [("entity", root)],
          nodes := [(nodeKey "entity" root, ({ type := "entity", id := root, depth := 0 } : NodeView))],
          edges := (get_outgoing_relationships s "entity" root none true).map (outEdgeView "entity" root)
            ++ (get_incoming_relationships s "entity" root none true).map (inEdgeView "entity" root) } := by
    rw [show fuelFor s = (2 * s.rels.length + 1) + 1 from rfl]
    rw [traverse]
    rw [if_neg (by simp)]
    simp only [foldl_out_edges s 0 (2 * s.rels.length + 1) (0 + 1) "entity" root (by norm_num),
      foldl_in_edges s 0 (2 * s.rels.length + 1) (0 + 1) "entity" root (by norm_num)]
    simp [dictInsert]
  refine ⟨?_, ?_, ?_⟩
  · show (traverse s none 0 (fuelFor s) "entity" root 0
        { visited := [], nodes := [], edges := [] }).nodes = _
    rw [hmain]
  · show (traverse s none 0 (fuelFor s) "entity" root 0
        { visited := [], nodes := [], edges := [] }).edges = _
    rw [hmain]
  · show (traverse s none 0 (fuelFor s) "entity" root 0
        { visited := [], nodes := [], edges := [] }).nodes.length = 1
    rw [hmain]
    rfl

/-- Counterexample to claim C9 as stated: with a single active self-loop
on the root there is exactly one active relationship having the root as
from or to endpoint, yet two EdgeViews are returned (one from the
outgoing loop, one from the incoming loop). -/
theorem find_connected_self_loop_cex :
    (find_connected_entities storeC9 1 0 none).total_edges = 2
    ∧ (storeC9.rels.filter (fun r => (r.end_date == none)
        && ((r.from_type == "entity" && r.from_id == 1)
            || (r.to_type == "entity" && r.to_id == 1)))).length = 1
    ∧ (find_connected_entities storeC9 1 0 none).total_edges
      ≠ (storeC9.rels.filter (fun r => (r.end_date == none)
        && ((r.from_type == "entity" && r.from_id == 1)
            || (r.to_type == "entity" && r.to_id == 1)))).length := by
  decide

/-- Claim C2 as amended: on a store holding exactly one active owns
relationship from root entity E1 to property P1, the depth-1 subgraph has
exactly the two nodes entity:E1 (depth 0) and property:P1 (depth 1), and
exactly two edges: the relationship is emitted once as the outgoing edge
of E1 and once more, identically, as the incoming edge of P1. -/
theorem find_connected_single_owns (e1 p1 : Int) (rid nid : Nat) (src : String)
    (sd : Option Int) (conf : Option Rat) :
    (find_connected_entities (storeC2g e1 p1 rid nid src sd conf) e1 1 none).nodes
      = [(nodeKey "entity" e1, ({ type := "entity", id := e1, depth := 0 } : NodeView)),
         (nodeKey "property" p1, ({ type := "property", id := p1, depth := 1 } : NodeView))]
    ∧ (find_connected_entities (storeC2g e1 p1 rid nid src sd conf) e1 1 none).edges
      = [outEdgeView "entity" e1 (relC2g e1 p1 rid src sd conf),
         inEdgeView "property" p1 (relC2g e1 p1 rid src sd conf)]
    ∧ outEdgeView "entity" e1 (relC2g e1 p1 rid src sd conf)
      = inEdgeView "property" p1 (relC2g e1 p1 rid src sd conf)
    ∧ (find_connected_entities (storeC2g e1 p1 rid nid src sd conf) e1 1 none).total_nodes = 2
    ∧ (find_connected_entities (storeC2g e1 p1 rid nid src sd conf) e1 1 none).total_edges = 2 := by
  have hkb : (nodeKey "entity" e1 == nodeKey "property" p1) = false := by
    rw [beq_eq_false_iff_ne]
    intro h
    exact absurd (nodeKey_inj h).1 (by decide)
  have h1 : get_outgoing_relationships (storeC2g e1 p1 rid nid src sd conf) "entity" e1 none true
      = [relC2g e1 p1 rid src sd conf] := by
    simp [get_outgoing_relationships, storeC2g, relC2g]
  have h2 : get_incoming_relationships (storeC2g e1 p1 rid nid src sd conf) "entity" e1 none true
      = [] := by
    simp [get_incoming_relationships, storeC2g, relC2g]
  have h3 : get_outgoing_relationships (storeC2g e1 p1 rid nid src sd conf) "property" p1 none true
      = [] := by
    simp [get_outgoing_relationships, storeC2g, relC2g]
  have h4 : get_incoming_relationships (storeC2g e1 p1 rid nid src sd conf) "property" p1 none true
      = [relC2g e1 p1 rid src sd conf] := by
    simp [get_incoming_relationships, storeC2g, relC2g]
  have hmain : traverse (storeC2g e1 p1 rid nid src sd conf) none 1
        (fuelFor (storeC2g e1 p1 rid nid src sd conf)) "entity" e1 0
        { visited := [], nodes := [], edges := [] }
      = { visited := [("property", p1), ("entity", e1)],
          nodes := [(nodeKey "entity" e1, ({ type := "entity", id := e1, depth := 0 } : NodeView)),
                    (nodeKey "property" p1, ({ type := "property", id := p1, depth := 1 } : NodeView))],
          edges := [outEdgeView "entity" e1 (relC2g e1 p1 rid src sd conf),
                    inEdgeView "property" p1 (relC2g e1 p1 rid src sd conf)] } := by
    rw [show fuelFor (storeC2g e1 p1 rid nid src sd conf) = 3 + 1 from rfl]
    rw [traverse]
    rw [if_neg (by simp)]
    simp only [h1, h2, h3, h4, List.foldl_cons, List.foldl_nil]
    simp [traverse, relTypesBlocks, dictInsert, hkb, relC2g, h3, h4]
  refine ⟨?_, ?_, ?_, ?_, ?_⟩
  · show (traverse (storeC2g e1 p1 rid nid src sd conf) none 1
        (fuelFor (storeC2g e1 p1 rid nid src sd conf)) "entity" e1 0
        { visited := [], nodes := [], edges := [] }).nodes = _
    rw [hmain]
  · show (traverse (storeC2g e1 p1 rid nid src sd conf) none 1
        (fuelFor (storeC2g e1 p1 rid nid src sd conf)) "entity" e1 0
        { visited := [], nodes := [], edges := [] }).edges = _
    rw [hmain]
  · simp [outEdgeView, inEdgeView, relC2g]
  · show (traverse (storeC2g e1 p1 rid nid src sd conf) none 1
        (fuelFor (storeC2g e1 p1 rid nid src sd conf)) "entity" e1 0
        { visited := [], nodes := [], edges := [] }).nodes.length = 2
    rw [hmain]
    rfl
  · show (traverse (storeC2g e1 p1 rid nid src sd conf) none 1
        (fuelFor (storeC2g e1 p1 rid nid src sd conf)) "entity" e1 0
        { visited := [], nodes := [], edges := [] }).edges.length = 2
    rw [hmain]
    rfl

/-- Counterexample to claim C2 as stated: on the concrete one-owns-edge
store the depth-1 subgraph has 2 nodes but 2 edges, not 1. -/
theorem find_connected_single_owns_cex :
    (find_connected_entities storeC2 1 1 none).total_nodes = 2
    ∧ (find_connected_entities storeC2 1 1 none).total_edges = 2
    ∧ (find_connected_entities storeC2 1 1 none).total_edges ≠ 1 := by
  decide

end ChainOfRecord
